import Mathlib

/-!
Shallow embedding of the `tactful` contact-record converter (Rust), covering
the parts exercised by the claims: the `PartialDate` value type with its
validation and its JSON / vCard text encodings, the `PhoneNumber` validator,
the JSON contact codec, the vCard contact encoder, the birthday projector and
the birthday-calendar generator.

Strings that the code inspects character by character are modelled as
`List Char`; strings that are only carried along (names, addresses, error
messages) are modelled as Lean `String`.  Rust `u16` values are modelled as
`Nat`; the `u16` range bound `≤ 65535` appears as an explicit hypothesis or
check wherever the source's type or `u16::from_str` makes it matter.
`anyhow` error values are modelled as the list of context messages, outermost
context first.
-/

/-- Error model for `anyhow::Error`: the chain of messages, outermost first. -/
abbrev Err := List String

/-- Model of `anyhow`'s `.with_context(...)` / `.context(...)` on a `Result`:
wrap the error of a fallible computation with one more message. -/
def withCtx (msg : String) : Except Err α → Except Err α
  | Except.ok a => Except.ok a
  | Except.error e => Except.error (msg :: e)

/-- Decidable equality for the `Except` results our embedded functions
return, so that concrete runs can be checked with `decide`. -/
instance {ε α : Type} [DecidableEq ε] [DecidableEq α] : DecidableEq (Except ε α) := fun x y =>
  match x, y with
  | Except.ok a, Except.ok b =>
    if h : a = b then isTrue (by rw [h]) else isFalse (by simp [h])
  | Except.ok _, Except.error _ => isFalse (by simp)
  | Except.error _, Except.ok _ => isFalse (by simp)
  | Except.error e, Except.error f =>
    if h : e = f then isTrue (by rw [h]) else isFalse (by simp [h])

/-- The decimal digit character for `n < 10`. -/
def digitChar (n : Nat) : Char := Char.ofNat (48 + n)

/-- Fuel-driven recursion behind `natDigits` (structural recursion on fuel, so
that concrete values reduce inside the kernel). -/
def natDigitsGo (fuel : Nat) (n : Nat) : List Char :=
  match fuel with
  | 0 => []
  | fuel + 1 =>
    if n < 10 then [digitChar n]
    else natDigitsGo fuel (n / 10) ++ [digitChar (n % 10)]

/-- Decimal rendering of a natural number, most significant digit first.
Models Rust's `{}` / `to_string` formatting of an unsigned integer. -/
def natDigits (n : Nat) : List Char := natDigitsGo (n + 1) n

/-- Numeric value of a list of decimal digit characters, as accumulated by a
left-to-right fold (the way `u16::from_str` accumulates). -/
def digitsToNat (cs : List Char) : Nat :=
  cs.foldl (fun a c => a * 10 + (c.toNat - 48)) 0

/-- Model of Rust's `format!("{:02}", n)`: zero-pad to width 2. -/
def pad2 (n : Nat) : List Char :=
  if n < 10 then '0' :: natDigits n else natDigits n

/-- Model of Rust's `format!("{:04}", n)`: zero-pad to width 4. -/
def pad4 (n : Nat) : List Char :=
  if n < 10 then '0' :: '0' :: '0' :: natDigits n
  else if n < 100 then '0' :: '0' :: natDigits n
  else if n < 1000 then '0' :: natDigits n
  else natDigits n

/-- Model of Rust's `str::split('-')`: split a character list at every `'-'`,
keeping empty pieces (so the result always has one more piece than there are
separators). -/
def splitOnDash : List Char → List (List Char)
  | [] => [[]]
  | c :: cs =>
    if c = '-' then [] :: splitOnDash cs
    else
      match splitOnDash cs with
      | [] => [[c]]
      | p :: ps => (c :: p) :: ps

/-- Model of Rust's `u16::from_str` (i.e. `from_str_radix(s, 10)` for `u16`):
an optional leading `'+'` or `'-'` sign, then one or more ASCII digits; the
empty string fails, a `'-'` sign fails for an unsigned target, a non-digit
fails, and a value exceeding `u16::MAX = 65535` fails.  The per-step
`checked_mul`/`checked_add` overflow test of the source is equivalent to the
final-value test because the accumulator is monotone. -/
def u16FromStr (cs : List Char) : Except Err Nat :=
  let digitsPart := match cs with
    | [] => []
    | c :: rest => if c = '+' ∨ c = '-' then rest else cs
  let neg : Bool := match cs with
    | [] => false
    | c :: _ => c = '-'
  if digitsPart = [] then Except.error ["cannot parse integer from empty string"]
  else if neg then Except.error ["invalid digit found in string"]
  else if digitsPart.all Char.isDigit then
    if digitsToNat digitsPart ≤ 65535 then Except.ok (digitsToNat digitsPart)
    else Except.error ["number too large to fit in target type"]
  else Except.error ["invalid digit found in string"]

/-- Model of `PartialDate` from `src/main.rs`: year, month and day are each optional.
The Rust fields are `u16`; here they are `Nat`, with the `u16` bound made
explicit in theorems where it matters. -/
structure PartialDate where
  year : Option Nat
  month : Option Nat
  day : Option Nat
deriving DecidableEq, Repr

namespace PartialDate

/-- Model of `PartialDate::is_leap_year` from `src/main.rs`. -/
def is_leap_year (year : Nat) : Bool :=
  ((year % 4 == 0) && (year % 100 != 0)) || (year % 400 == 0)

/-- Model of `PartialDate::max_days_in_month` from `src/main.rs`.  The source's
`unreachable!()` arm for a month outside `1..=12` is modelled as `0`; it is
never consulted because `validate` checks the month range first. -/
def max_days_in_month (month : Option Nat) (year : Option Nat) : Nat :=
  match month with
  | none => 31
  | some month =>
    match month with
    | 1 => 31
    | 2 => match year with
           | none => 29
           | some year => if is_leap_year year then 29 else 28
    | 3 => 31
    | 4 => 30
    | 5 => 31
    | 6 => 30
    | 7 => 31
    | 8 => 31
    | 9 => 30
    | 10 => 31
    | 11 => 30
    | 12 => 31
    | _ => 0

/-- Model of `PartialDate::validate` from `src/main.rs`: bail on a present month
outside `1..=12`, then bail on a present day of `0` or exceeding
`max_days_in_month`. -/
def validate (d : PartialDate) : Except Err Unit := do
  match d.month with
  | some month =>
    if month = 0 ∨ month > 12 then
      throw ["Invalid month: " ++ toString month]
    else pure ()
  | none => pure ()
  match d.day with
  | some day =>
    if day = 0 ∨ day > max_days_in_month d.month d.year then
      throw ["Invalid day: " ++ toString day]
    else pure ()
  | none => pure ()

/-- Model of `PartialDate::to_json_string_repr` from `src/main.rs`: an absent component
renders as the empty string, the year as unpadded decimal, month and day
zero-padded to width 2; the three pieces join with `'-'`. -/
def to_json_string_repr (d : PartialDate) : List Char :=
  let year := match d.year with
    | some year => natDigits year
    | none => []
  let month := match d.month with
    | some month => pad2 month
    | none => []
  let day := match d.day with
    | some day => pad2 day
    | none => []
  year ++ ['-'] ++ month ++ ['-'] ++ day

/-- Model of `PartialDate::parse_json_component` from `src/main.rs`: an empty component
is `none`, otherwise the component must parse via `u16::from_str`. -/
def parse_json_component (component : List Char) : Except Err (Option Nat) :=
  if component = [] then Except.ok none
  else
    withCtx ("Invalid component: \"" ++ component.asString ++ "\"")
      ((u16FromStr component).map some)

/-- Model of `PartialDate::from_json_string_repr` from `src/main.rs`: split on `'-'`
into exactly 3 components (else error), parse each component, validate the
assembled date. -/
def from_json_string_repr (s : List Char) : Except Err PartialDate :=
  let errorMessage := "Invalid date format: \"" ++ s.asString ++ "\""
  match splitOnDash s with
  | [c0, c1, c2] => do
    let year ← withCtx errorMessage (parse_json_component c0)
    let month ← withCtx errorMessage (parse_json_component c1)
    let day ← withCtx errorMessage (parse_json_component c2)
    let date : PartialDate := ⟨year, month, day⟩
    withCtx ("Invalid date \"" ++ s.asString ++ "\"") date.validate
    pure date
  | _ => Except.error [errorMessage]

/-- Model of `PartialDate::to_vcard_string_repr` from `src/main.rs`: a present year
above 9999 fails first; then the six representable presence combinations of
vCard 4.0 render, and the two others fail. -/
def to_vcard_string_repr (d : PartialDate) : Except Err (List Char) := do
  match d.year with
  | some year =>
    if year > 9999 then
      throw ["Years greater than 9999 cannot be represented in vCard version 4.0"]
    else pure ()
  | none => pure ()
  match d.year, d.month, d.day with
  | none, none, some day => pure (['-', '-', '-'] ++ pad2 day)
  | none, some month, none => pure (['-', '-'] ++ pad2 month)
  | none, some month, some day => pure (['-', '-'] ++ pad2 month ++ pad2 day)
  | some year, none, none => pure (pad4 year)
  | some year, some month, none => pure (pad4 year ++ ['-'] ++ pad2 month)
  | some year, some month, some day => pure (pad4 year ++ pad2 month ++ pad2 day)
  | none, none, none => throw ["Date cannot be represented in vCard version 4.0"]
  | some _, none, some _ => throw ["Date cannot be represented in vCard version 4.0"]

end PartialDate

/-- Model of `Date` from `src/main.rs`: a fully known calendar date.  The Rust fields
are `u16`; modelled as `Nat`. -/
structure Date where
  year : Nat
  month : Nat
  day : Nat
deriving DecidableEq, Repr

/-- The ordering Rust derives for `Date` (`#[derive(PartialOrd, Ord)]`):
lexicographic on `(year, month, day)` in field order. -/
def dateLe (a b : Date) : Bool :=
  a.year < b.year ||
    (a.year == b.year &&
      (a.month < b.month || (a.month == b.month && a.day ≤ b.day)))

/-- Model of `PhoneNumberType` from `src/main.rs`. -/
inductive PhoneNumberType where
  | Mobile
  | Home
  | Work
deriving DecidableEq, Repr

/-- Model of `PhoneNumber` from `src/main.rs`. -/
structure PhoneNumber where
  number : String
  ty : PhoneNumberType
deriving DecidableEq, Repr

/-- Model of Rust's `char::is_whitespace`: the Unicode `White_Space`
property. -/
def rustIsWhitespace (c : Char) : Bool :=
  let n := c.toNat
  (9 ≤ n ∧ n ≤ 13) ∨ n = 32 ∨ n = 133 ∨ n = 160 ∨ n = 5760 ∨
    (8192 ≤ n ∧ n ≤ 8202) ∨ n = 8232 ∨ n = 8233 ∨ n = 8239 ∨ n = 8287 ∨ n = 12288

/-- Model of `PhoneNumber::validate` from `src/main.rs`: drop all whitespace
characters; the result must be non-empty, start with an ASCII digit or `'+'`,
and continue with ASCII digits only. -/
def PhoneNumber.validate (p : PhoneNumber) : Except Err Unit := do
  let chars := p.number.toList.filter (fun c => !rustIsWhitespace c)
  match chars.head? with
  | some firstChar =>
    if !(firstChar.isDigit || firstChar = '+') then
      throw ["Phone number must begin with a digit or a '+'"]
    else pure ()
  | none =>
    throw ["Phone number cannot be empty"]
  if !((chars.drop 1).all Char.isDigit) then
    throw ["All except the first character of a phone number must be digits"]
  else pure ()

/-- Model of `Name` from `src/main.rs`. -/
structure Name where
  first : String
  last : String
deriving DecidableEq, Repr

/-- Model of `CountryCode` of the external `country_codes` crate: an ISO 3166-1
alpha-2 code together with the country's English name. -/
structure CountryCode where
  alpha2 : String
  name : String
deriving DecidableEq, Repr

/-- Modelled from the spec: the external country-code resolver
(`country_codes::from_alpha2`) is a static total mapping for known alpha-2
codes and fails on unknown codes.  The underlying table is passed explicitly
here. -/
def from_alpha2 (table : List CountryCode) (s : String) : Except Err CountryCode :=
  match table.find? (fun c => c.alpha2 == s) with
  | some c => Except.ok c
  | none => Except.error ["Unknown country code: " ++ s]

/-- Model of `Address` from `src/main.rs`. -/
structure Address where
  street : String
  number : String
  locality : String
  postal_code : String
  country : CountryCode
deriving DecidableEq, Repr

/-- Model of `Contact` from `src/main.rs`. -/
structure Contact where
  name : Name
  birthday : Option PartialDate
  phone_numbers : List PhoneNumber
  email_addresses : List String
  address : Option Address
deriving DecidableEq, Repr

/-- Model of `BdayItem` from `src/main.rs`. -/
structure BdayItem where
  next_bday : Date
  contact : Contact
deriving DecidableEq, Repr

/-- The projection step of the `Bdays` command in `src/main.rs` (`main`,
`Command::Bdays`): for a birthday with both month and day present, the next
occurrence is this year's `(month, day)` if that date compares `>= today`,
else next year's; otherwise the contact yields nothing. -/
def nextBday (today : Date) (bday : PartialDate) : Option Date :=
  match bday.month, bday.day with
  | some month, some day =>
    let bdayThisYear : Date := ⟨today.year, month, day⟩
    if dateLe today bdayThisYear then some bdayThisYear
    else some ⟨today.year + 1, month, day⟩
  | _, _ => none

/-- The `filter_map` of the `Bdays` command in `src/main.rs`: keep each
contact whose birthday projects to a next occurrence, paired with that
date. -/
def bdayItems (today : Date) (contacts : List Contact) : List BdayItem :=
  contacts.filterMap (fun contact =>
    match contact.birthday with
    | none => none
    | some bday =>
      match nextBday today bday with
      | some nb => some ⟨nb, contact⟩
      | none => none)

/-- The `Bdays` listing of `src/main.rs` after
`sort_unstable_by_key(|item| item.next_bday)`.  The source's unstable sort
guarantees a permutation ordered by the key; it is embedded here as insertion
sort by the derived `Date` order (the tie order of the unstable sort is not
modelled). -/
def bdaysListing (today : Date) (contacts : List Contact) : List BdayItem :=
  List.insertionSort (fun a b => dateLe a.next_bday b.next_bday = true)
    (bdayItems today contacts)

/-- Model of `JsonName` from `src/json.rs`. -/
structure JsonName where
  first : String
  last : String
deriving DecidableEq, Repr

/-- Model of `JsonPhoneNumberType` from `src/json.rs`. -/
inductive JsonPhoneNumberType where
  | Mobile
  | Work
  | Home
deriving DecidableEq, Repr

/-- Model of `JsonPhoneNumber` from `src/json.rs`. -/
structure JsonPhoneNumber where
  number : String
  ty : JsonPhoneNumberType
deriving DecidableEq, Repr

/-- Model of `JsonAddress` from `src/json.rs`. -/
structure JsonAddress where
  street : String
  number : String
  locality : String
  postal_code : String
  country : String
deriving DecidableEq, Repr

/-- Model of `JsonContact` from `src/json.rs`, as the deserialized Rust value: after
`#[serde(default)]`, `phone` and `email` are plain vectors. -/
structure JsonContact where
  name : JsonName
  bday : Option (List Char)
  phone : List JsonPhoneNumber
  email : List String
  address : Option JsonAddress
deriving DecidableEq, Repr

/-- The JSON object for one contact as it appears on the wire: the serde
attributes `skip_serializing_if = "Vec::is_empty"` and `default` in
`src/json.rs` make the `phone` and `email` fields optional in the document
(omitted when empty, empty when omitted). -/
structure JsonContactEncoded where
  name : JsonName
  bday : Option (List Char)
  phone : Option (List JsonPhoneNumber)
  email : Option (List String)
  address : Option JsonAddress
deriving DecidableEq, Repr

/-- Serialization of one `JsonContact` to its wire object, per the serde
attributes in `src/json.rs`: an empty `phone` or `email` vector is omitted. -/
def JsonContact.encode (j : JsonContact) : JsonContactEncoded :=
  { name := j.name
    bday := j.bday
    phone := if j.phone.isEmpty then none else some j.phone
    email := if j.email.isEmpty then none else some j.email
    address := j.address }

/-- Deserialization of one wire object to a `JsonContact`, per the serde
`default` attribute in `src/json.rs`: a missing `phone` or `email` field
becomes the empty vector. -/
def JsonContactEncoded.decode (w : JsonContactEncoded) : JsonContact :=
  { name := w.name
    bday := w.bday
    phone := w.phone.getD []
    email := w.email.getD []
    address := w.address }

/-- Model of `From<&Name> for JsonName` in `src/json.rs`. -/
def JsonName.from (name : Name) : JsonName :=
  { first := name.first, last := name.last }

/-- Model of `From<PhoneNumberType> for JsonPhoneNumberType` in `src/json.rs`. -/
def JsonPhoneNumberType.from : PhoneNumberType → JsonPhoneNumberType
  | PhoneNumberType.Mobile => JsonPhoneNumberType.Mobile
  | PhoneNumberType.Work => JsonPhoneNumberType.Work
  | PhoneNumberType.Home => JsonPhoneNumberType.Home

/-- Model of `From<&PhoneNumber> for JsonPhoneNumber` in `src/json.rs`. -/
def JsonPhoneNumber.from (p : PhoneNumber) : JsonPhoneNumber :=
  { number := p.number, ty := JsonPhoneNumberType.from p.ty }

/-- Model of `From<&Address> for JsonAddress` in `src/json.rs`: the country renders as
its alpha-2 code. -/
def JsonAddress.from (a : Address) : JsonAddress :=
  { street := a.street
    number := a.number
    locality := a.locality
    postal_code := a.postal_code
    country := a.country.alpha2 }

/-- Model of `From<&Contact> for JsonContact` in `src/json.rs`. -/
def JsonContact.from (contact : Contact) : JsonContact :=
  { name := JsonName.from contact.name
    bday := contact.birthday.map PartialDate.to_json_string_repr
    phone := contact.phone_numbers.map JsonPhoneNumber.from
    email := contact.email_addresses
    address := contact.address.map JsonAddress.from }

/-- Model of `contacts_to_json` from `src/json.rs`: the serialized document is the
array of the contacts' wire objects, in order. -/
def contacts_to_json (contacts : List Contact) : List JsonContactEncoded :=
  contacts.map (fun c => (JsonContact.from c).encode)

/-- Model of Rust's `collect::<Result<Vec<_>, _>>()`: map a fallible
function over a list, stopping at the first error. -/
def listMapExcept (f : α → Except Err β) : List α → Except Err (List β)
  | [] => Except.ok []
  | a :: as => do
    let b ← f a
    let bs ← listMapExcept f as
    pure (b :: bs)

/-- Model of Rust's `Option::map` followed by `transpose()` on a fallible
function. -/
def optionMapExcept (f : α → Except Err β) : Option α → Except Err (Option β)
  | none => Except.ok none
  | some a => (f a).map some

/-- Model of `From<JsonPhoneNumberType> for PhoneNumberType` in `src/json.rs`. -/
def PhoneNumberType.fromJson : JsonPhoneNumberType → PhoneNumberType
  | JsonPhoneNumberType.Mobile => PhoneNumberType.Mobile
  | JsonPhoneNumberType.Work => PhoneNumberType.Work
  | JsonPhoneNumberType.Home => PhoneNumberType.Home

/-- Model of `From<&JsonName> for Name` in `src/json.rs`. -/
def Name.fromJson (j : JsonName) : Name :=
  { first := j.first, last := j.last }

/-- Model of `TryFrom<JsonPhoneNumber> for PhoneNumber` in `src/json.rs`: build the
phone number, then validate it. -/
def PhoneNumber.tryFrom (j : JsonPhoneNumber) : Except Err PhoneNumber := do
  let phoneNumber : PhoneNumber := ⟨j.number, PhoneNumberType.fromJson j.ty⟩
  withCtx "Failed to parse phone number" phoneNumber.validate
  pure phoneNumber

/-- Model of `TryFrom<JsonAddress> for Address` in `src/json.rs`: the country string
must resolve through the alpha-2 table. -/
def Address.tryFrom (table : List CountryCode) (j : JsonAddress) : Except Err Address := do
  let country ← withCtx "Failed to parse address" (from_alpha2 table j.country)
  pure { street := j.street
         number := j.number
         locality := j.locality
         postal_code := j.postal_code
         country := country }

/-- Model of `TryFrom<JsonContact> for Contact` in `src/json.rs`: every per-field
failure is wrapped with the contact's display name. -/
def Contact.tryFrom (table : List CountryCode) (j : JsonContact) : Except Err Contact := do
  let errorMessage :=
    "Failed to parse contact \"" ++ j.name.first ++ " " ++ j.name.last ++ "\""
  let birthday ← withCtx errorMessage
    (optionMapExcept (fun s => PartialDate.from_json_string_repr s) j.bday)
  let phoneNumbers ← withCtx errorMessage (listMapExcept PhoneNumber.tryFrom j.phone)
  let address ← withCtx errorMessage (optionMapExcept (Address.tryFrom table) j.address)
  pure { name := Name.fromJson j.name
         birthday := birthday
         phone_numbers := phoneNumbers
         email_addresses := j.email
         address := address }

/-- Model of `contacts_from_json` from `src/json.rs`: decode every wire object, stop
at the first failing contact, wrapping it with the store-level context. -/
def contacts_from_json (table : List CountryCode) (doc : List JsonContactEncoded) :
    Except Err (List Contact) :=
  withCtx "Failed to parse contact store"
    (listMapExcept (fun w => Contact.tryFrom table w.decode) doc)

/-- A vCard content line, as produced by `src/vcard.rs`: name, parameters
(each an identifier with its values), value. -/
structure Contentline where
  name : String
  params : List (String × List String)
  value : String
deriving DecidableEq, Repr

/-- Modelled from the spec: the external `ical_vcard` crate's `Value::new`
rejects a value containing control characters (everything below `0x20` except
horizontal tab, and `0x7f`); spaces, tabs and all other characters are
allowed. -/
def valueOk (s : String) : Bool :=
  s.toList.all (fun c => c = ' ' ∨ c = '\t' ∨ ¬(c.toNat < 32 ∨ c.toNat = 127))

/-- Modelled from the spec: `ical_vcard::Value::new`, failing on forbidden
control characters. -/
def valueNew (s : String) : Except Err String :=
  if valueOk s then Except.ok s else Except.error ["Value contains forbidden control characters"]

/-- The `TYPE` parameter value for a phone number in `src/vcard.rs`. -/
def telTypeParam : PhoneNumberType → String
  | PhoneNumberType.Mobile => "cell"
  | PhoneNumberType.Home => "home"
  | PhoneNumberType.Work => "work"

/-- Whitespace stripping of a phone number for the `TEL` line in
`src/vcard.rs`. -/
def stripPhoneWhitespace (s : String) : String :=
  (s.toList.filter (fun c => !rustIsWhitespace c)).asString

/-- Model of `contact_to_contentlines` from `src/vcard.rs`: `BEGIN`/`VERSION`, the `N`
line (fallible), one `TEL` line per phone number, one `EMAIL` line per address
(fallible), an `ADR` line if an address is present (fallible), a `BDAY` line
if a birthday is present (fallible via `to_vcard_string_repr`), then `END`.
`Value::new(...).expect(...)` sites whose argument is always
control-character-free are modelled as direct construction. -/
def contact_to_contentlines (contact : Contact) : Except Err (List Contentline) := do
  let nValue ← withCtx
    "Failed to write name to contentline because it contains control characters"
    (valueNew (contact.name.last ++ ";" ++ contact.name.first ++ ";;;"))
  let headLines : List Contentline :=
    [ ⟨"BEGIN", [], "VCARD"⟩,
      ⟨"VERSION", [], "4.0"⟩,
      ⟨"N", [], nValue⟩ ]
  let telLines : List Contentline := contact.phone_numbers.map (fun p =>
    ⟨"TEL", [("VALUE", ["uri"]), ("TYPE", [telTypeParam p.ty])],
      "tel:" ++ stripPhoneWhitespace p.number⟩)
  let emailLines ← listMapExcept (fun e => do
    let v ← withCtx "Failed to write email address to contentline" (valueNew e)
    pure (⟨"EMAIL", [], v⟩ : Contentline)) contact.email_addresses
  let adrLines : List Contentline ← match contact.address with
    | none => pure []
    | some a => do
      let v ← withCtx "Failed to write address to contentline"
        (valueNew (";;" ++ a.street ++ " " ++ a.number ++ ";" ++ a.locality ++ ";;" ++
          a.postal_code ++ ";" ++ a.country.name))
      pure [(⟨"ADR", [], v⟩ : Contentline)]
  let bdayLines : List Contentline ← match contact.birthday with
    | none => pure []
    | some birthday => do
      let r ← withCtx "Failed to write birthday to contentline"
        birthday.to_vcard_string_repr
      pure [(⟨"BDAY", [], r.asString⟩ : Contentline)]
  pure (headLines ++ telLines ++ emailLines ++ adrLines ++ bdayLines ++
    [⟨"END", [], "VCARD"⟩])

/-- Model of `contacts_to_vcard` from `src/vcard.rs`: serialize every contact, stop at
the first failing one, wrapping its error with a generic message.  (The
separate I/O-failure context of `write_all` is outside the model.) -/
def contacts_to_vcard (contacts : List Contact) : Except Err (List (List Contentline)) :=
  listMapExcept
    (fun c => withCtx "Contact could not be serialized to vCard" (contact_to_contentlines c))
    contacts

/-- One generated calendar event of the `BdaysCalendar` command (its start
date and summary), from `src/main.rs`. -/
structure CalEvent where
  year : Nat
  month : Nat
  day : Nat
  summary : String
deriving DecidableEq, Repr

/-- The body of the known-birth-year loop of the `BdaysCalendar` command in
`src/main.rs` (`for age in 0..150`): emit the event for the current year,
advance the year, stop when the advanced year passes the ten-year horizon.
`fuel` is the number of remaining loop iterations, initially 150. -/
def knownYearEventsGo (nowYear : Nat) (month day : Nat) (first last : String) :
    Nat → Nat → Nat → List CalEvent
  | 0, _, _ => []
  | fuel + 1, age, year =>
    let ev : CalEvent :=
      ⟨year, month, day, first ++ " " ++ last ++ " (" ++ toString age ++ ")"⟩
    if year + 1 > nowYear + 10 then [ev]
    else ev :: knownYearEventsGo nowYear month day first last fuel (age + 1) (year + 1)

/-- The events the `BdaysCalendar` command generates for a contact whose
birth year is known (`src/main.rs`, `Command::BdaysCalendar`). -/
def knownYearEvents (nowYear birthYear month day : Nat) (first last : String) :
    List CalEvent :=
  knownYearEventsGo nowYear month day first last 150 0 birthYear

/-- The year component of the JSON date encoding, as a standalone function
(the body of the first `match` in `to_json_string_repr`). -/
def renderYearComp : Option Nat → List Char
  | some year => natDigits year
  | none => []

/-- The month/day component of the JSON date encoding, as a standalone
function (the body of the second and third `match` in
`to_json_string_repr`). -/
def renderPad2Comp : Option Nat → List Char
  | some n => pad2 n
  | none => []

/-- The grammar a non-empty JSON date component actually satisfies when
`from_json_string_repr` accepts it: a digit string, optionally preceded by a
single `'+'` (which Rust's `u16::from_str` tolerates), whose value fits in
`u16`. -/
def jsonComponentSpec (cs : List Char) (o : Option Nat) : Prop :=
  (cs = [] ∧ o = none) ∨
  ∃ t, (cs = t ∨ cs = '+' :: t) ∧ t ≠ [] ∧ (∀ c ∈ t, c.isDigit = true) ∧
    digitsToNat t ≤ 65535 ∧ o = some (digitsToNat t)

/-! ## Lemmas about decimal rendering and parsing -/

theorem digitChar_toNat (n : Nat) (h : n < 10) : (digitChar n).toNat = 48 + n := by
  interval_cases n <;> rfl

theorem digitChar_isDigit (n : Nat) (h : n < 10) : (digitChar n).isDigit = true := by
  interval_cases n <;> rfl

theorem natDigitsGo_fuel (f1 : Nat) : ∀ f2 n, n < f1 → n < f2 →
    natDigitsGo f1 n = natDigitsGo f2 n := by
  induction f1 with
  | zero => intro f2 n h1 _; omega
  | succ f ih =>
    intro f2 n h1 h2
    cases f2 with
    | zero => omega
    | succ g =>
      simp only [natDigitsGo]
      by_cases hn : n < 10
      · simp [hn]
      · have hdiv : n / 10 < n := Nat.div_lt_self (by omega) (by omega)
        simp only [if_neg hn]
        rw [ih g (n / 10) (by omega) (by omega)]

theorem natDigits_unfold (n : Nat) :
    natDigits n = if n < 10 then [digitChar n]
      else natDigits (n / 10) ++ [digitChar (n % 10)] := by
  by_cases hn : n < 10
  · simp [natDigits, natDigitsGo, hn]
  · have hdiv : n / 10 < n := Nat.div_lt_self (by omega) (by omega)
    rw [if_neg hn]
    have hstep : natDigitsGo (n + 1) n = natDigitsGo n (n / 10) ++ [digitChar (n % 10)] := by
      simp only [natDigitsGo, if_neg hn]
    unfold natDigits
    rw [hstep, natDigitsGo_fuel n (n / 10 + 1) (n / 10) (by omega) (by omega)]

theorem natDigits_ne_nil (n : Nat) : natDigits n ≠ [] := by
  rw [natDigits_unfold]
  by_cases hn : n < 10 <;> simp [hn]

theorem natDigits_all_digit (n : Nat) : ∀ c ∈ natDigits n, c.isDigit = true := by
  induction n using Nat.strong_induction_on with
  | _ n ih =>
    rw [natDigits_unfold]
    by_cases hn : n < 10
    · simp [hn, digitChar_isDigit n hn]
    · have hdiv : n / 10 < n := Nat.div_lt_self (by omega) (by omega)
      simp only [if_neg hn]
      intro c hc
      rcases List.mem_append.mp hc with h | h
      · exact ih (n / 10) hdiv c h
      · rcases List.mem_singleton.mp h with rfl
        exact digitChar_isDigit (n % 10) (Nat.mod_lt n (by omega))

theorem digitsToNat_append_singleton (l : List Char) (c : Char) :
    digitsToNat (l ++ [c]) = digitsToNat l * 10 + (c.toNat - 48) := by
  simp [digitsToNat, List.foldl_append]

theorem digitsToNat_natDigits (n : Nat) : digitsToNat (natDigits n) = n := by
  induction n using Nat.strong_induction_on with
  | _ n ih =>
    rw [natDigits_unfold]
    by_cases hn : n < 10
    · simp [hn, digitsToNat, digitChar_toNat n hn]
    · have hdiv : n / 10 < n := Nat.div_lt_self (by omega) (by omega)
      have hmod : n % 10 < 10 := Nat.mod_lt n (by omega)
      simp only [if_neg hn]
      rw [digitsToNat_append_singleton, ih (n / 10) hdiv, digitChar_toNat (n % 10) hmod]
      omega

theorem digitsToNat_cons_zero (l : List Char) :
    digitsToNat ('0' :: l) = digitsToNat l := by
  simp [digitsToNat]

theorem pad2_all_digit (n : Nat) : ∀ c ∈ pad2 n, c.isDigit = true := by
  unfold pad2
  by_cases hn : n < 10
  · simp only [if_pos hn]
    intro c hc
    rcases List.mem_cons.mp hc with rfl | h
    · rfl
    · exact natDigits_all_digit n c h
  · simp only [if_neg hn]
    exact natDigits_all_digit n

theorem pad2_ne_nil (n : Nat) : pad2 n ≠ [] := by
  unfold pad2
  by_cases hn : n < 10
  · simp [hn]
  · simp [hn, natDigits_ne_nil n]

theorem digitsToNat_pad2 (n : Nat) : digitsToNat (pad2 n) = n := by
  unfold pad2
  by_cases hn : n < 10
  · simp [hn, digitsToNat_cons_zero, digitsToNat_natDigits]
  · simp [hn, digitsToNat_natDigits]

theorem isDigit_ne_dash {c : Char} (h : c.isDigit = true) : c ≠ '-' := by
  intro hc; subst hc; simp [Char.isDigit] at h

theorem isDigit_ne_plus {c : Char} (h : c.isDigit = true) : c ≠ '+' := by
  intro hc; subst hc; simp [Char.isDigit] at h

/-- Success of `u16FromStr` on a non-empty all-digit string whose value fits. -/
theorem u16FromStr_of_digits (cs : List Char) (hne : cs ≠ [])
    (hall : ∀ c ∈ cs, c.isDigit = true) (hle : digitsToNat cs ≤ 65535) :
    u16FromStr cs = Except.ok (digitsToNat cs) := by
  match cs, hne with
  | c :: rest, _ =>
    have hc : c.isDigit = true := hall c (List.mem_cons_self c rest)
    have hplus : c ≠ '+' := isDigit_ne_plus hc
    have hdash : c ≠ '-' := isDigit_ne_dash hc
    have hnotsign : ¬(c = '+' ∨ c = '-') := by
      rintro (rfl | rfl) <;> simp_all
    simp only [u16FromStr, if_neg hnotsign]
    have hallb : (c :: rest).all Char.isDigit = true := by
      rw [List.all_eq_true]; exact hall
    simp [hdash, hallb, hle]

example : u16FromStr ("65535".toList) = Except.ok 65535 := by decide

example : u16FromStr ("65536".toList) =
    Except.error ["number too large to fit in target type"] := by decide

example : u16FromStr ("+12".toList) = Except.ok 12 := by decide

/-! ## Lemmas about splitting and component parsing -/

theorem splitOnDash_no_dash (xs : List Char) (h : '-' ∉ xs) :
    splitOnDash xs = [xs] := by
  induction xs with
  | nil => rfl
  | cons c cs ih =>
    have hc : c ≠ '-' := fun hc => h (by simp [hc])
    have hcs : '-' ∉ cs := fun hm => h (List.mem_cons_of_mem c hm)
    simp only [splitOnDash, if_neg hc, ih hcs]

theorem splitOnDash_append (xs ys : List Char) (h : '-' ∉ xs) :
    splitOnDash (xs ++ '-' :: ys) = xs :: splitOnDash ys := by
  induction xs with
  | nil => simp [splitOnDash]
  | cons c cs ih =>
    have hc : c ≠ '-' := fun hc => h (by simp [hc])
    have hcs : '-' ∉ cs := fun hm => h (List.mem_cons_of_mem c hm)
    simp only [List.cons_append, splitOnDash, if_neg hc, List.append_eq, ih hcs]

theorem parse_json_component_nil :
    PartialDate.parse_json_component [] = Except.ok none := rfl

theorem parse_json_component_digits (cs : List Char) (hne : cs ≠ [])
    (hall : ∀ c ∈ cs, c.isDigit = true) (hle : digitsToNat cs ≤ 65535) :
    PartialDate.parse_json_component cs = Except.ok (some (digitsToNat cs)) := by
  simp only [PartialDate.parse_json_component, if_neg hne,
    u16FromStr_of_digits cs hne hall hle, Except.map, withCtx]

theorem parse_json_component_pad2 (n : Nat) (hle : n ≤ 65535) :
    PartialDate.parse_json_component (pad2 n) = Except.ok (some n) := by
  rw [parse_json_component_digits (pad2 n) (pad2_ne_nil n) (pad2_all_digit n)
    (by rw [digitsToNat_pad2]; exact hle), digitsToNat_pad2]

theorem parse_json_component_natDigits (n : Nat) (hle : n ≤ 65535) :
    PartialDate.parse_json_component (natDigits n) = Except.ok (some n) := by
  rw [parse_json_component_digits (natDigits n) (natDigits_ne_nil n) (natDigits_all_digit n)
    (by rw [digitsToNat_natDigits]; exact hle), digitsToNat_natDigits]

theorem u16FromStr_plus (t : List Char) (hne : t ≠ [])
    (hall : ∀ c ∈ t, c.isDigit = true) (hle : digitsToNat t ≤ 65535) :
    u16FromStr ('+' :: t) = Except.ok (digitsToNat t) := by
  have hallb : t.all Char.isDigit = true := List.all_eq_true.mpr hall
  simp [u16FromStr, hne, hallb, hle]

/-- Full characterization of the successful runs of `u16FromStr`. -/
theorem u16FromStr_ok_iff (cs : List Char) (v : Nat) :
    u16FromStr cs = Except.ok v ↔
      ∃ t, (cs = t ∨ cs = '+' :: t) ∧ t ≠ [] ∧ (∀ c ∈ t, c.isDigit = true) ∧
        digitsToNat t ≤ 65535 ∧ v = digitsToNat t := by
  constructor
  · intro h
    match cs with
    | [] => simp [u16FromStr] at h
    | c :: rest =>
      by_cases hplus : c = '+'
      · subst hplus
        by_cases hrest : rest = []
        · subst hrest; simp [u16FromStr] at h
        · by_cases hall : rest.all Char.isDigit = true
          · by_cases hle : digitsToNat rest ≤ 65535
            · rw [u16FromStr_plus rest hrest (List.all_eq_true.mp hall) hle] at h
              cases h
              exact ⟨rest, Or.inr rfl, hrest, List.all_eq_true.mp hall, hle, rfl⟩
            · exfalso; simp [u16FromStr, hrest, hall, hle] at h
          · exfalso; simp [u16FromStr, hrest, hall] at h
      · by_cases hdash : c = '-'
        · subst hdash
          by_cases hrest : rest = []
          · subst hrest; simp [u16FromStr] at h
          · simp [u16FromStr, hrest] at h
        · have hsign : ¬(c = '+' ∨ c = '-') := by
            rintro (h2 | h2) <;> contradiction
          by_cases hall : (c :: rest).all Char.isDigit = true
          · by_cases hle : digitsToNat (c :: rest) ≤ 65535
            · rw [u16FromStr_of_digits (c :: rest) (by simp)
                (List.all_eq_true.mp hall) hle] at h
              cases h
              exact ⟨c :: rest, Or.inl rfl, by simp, List.all_eq_true.mp hall, hle, rfl⟩
            · exfalso
              rw [List.all_eq_true] at hall
              simp [u16FromStr, hplus, hdash, hall, hle] at h
              split at h <;> exact Except.noConfusion h
          · exfalso
            rw [List.all_eq_true] at hall
            simp [u16FromStr, hplus, hdash] at h
            split at h
            · rename_i hcond
              apply hall
              intro x hx
              rcases List.mem_cons.mp hx with rfl | hx2
              · exact hcond.1
              · exact hcond.2 x hx2
            · exact Except.noConfusion h
  · rintro ⟨t, hform, hne, hall, hle, rfl⟩
    rcases hform with rfl | rfl
    · exact u16FromStr_of_digits cs hne hall hle
    · exact u16FromStr_plus t hne hall hle

/-- Full characterization of the successful runs of `parse_json_component`. -/
theorem parse_json_component_ok_iff (cs : List Char) (o : Option Nat) :
    PartialDate.parse_json_component cs = Except.ok o ↔ jsonComponentSpec cs o := by
  by_cases hcs : cs = []
  · subst hcs
    simp only [PartialDate.parse_json_component, if_pos rfl]
    constructor
    · intro h
      injection h with h2
      exact Or.inl ⟨rfl, h2.symm⟩
    · rintro (⟨-, rfl⟩ | ⟨t, hform, hne, -, -, -⟩)
      · rfl
      · rcases hform with rfl | h2
        · exact absurd rfl hne
        · exact List.noConfusion h2
  · simp only [PartialDate.parse_json_component, if_neg hcs]
    constructor
    · intro h
      cases hu : u16FromStr cs with
      | error e => rw [hu] at h; simp [withCtx, Except.map] at h
      | ok v =>
        rw [hu] at h
        simp only [Except.map, withCtx] at h
        cases h
        obtain ⟨t, hform, hne, hall, hle, rfl⟩ := (u16FromStr_ok_iff cs v).mp hu
        exact Or.inr ⟨t, hform, hne, hall, hle, rfl⟩
    · rintro (⟨rfl, -⟩ | ⟨t, hform, hne, hall, hle, rfl⟩)
      · exact absurd rfl hcs
      · rw [(u16FromStr_ok_iff cs (digitsToNat t)).mpr ⟨t, hform, hne, hall, hle, rfl⟩]
        rfl

/-! ## Characterization of `PartialDate.validate` -/

theorem validate_ok_iff (d : PartialDate) :
    d.validate = Except.ok () ↔
      (∀ m, d.month = some m → 1 ≤ m ∧ m ≤ 12) ∧
      (∀ dd, d.day = some dd →
        1 ≤ dd ∧ dd ≤ PartialDate.max_days_in_month d.month d.year) := by
  obtain ⟨y, mo, da⟩ := d
  cases mo with
  | none =>
    cases da with
    | none =>
      simp [PartialDate.validate, Bind.bind, Except.bind, pure, Except.pure]
    | some dd =>
      simp only [PartialDate.validate, Bind.bind, Except.bind, throw, throwThe,
        MonadExceptOf.throw, pure, Except.pure]
      constructor
      · intro h
        constructor
        · intro m hm
          cases hm
        · intro x hx
          cases hx
          by_cases hc : dd = 0 ∨ dd > PartialDate.max_days_in_month none y
          · rw [if_pos hc] at h; exact Except.noConfusion h
          · push_neg at hc; omega
      · rintro ⟨-, h2⟩
        obtain ⟨h21, h22⟩ := h2 dd rfl
        rw [if_neg (by omega)]
  | some m =>
    cases da with
    | none =>
      simp only [PartialDate.validate, Bind.bind, Except.bind, throw, throwThe,
        MonadExceptOf.throw, pure, Except.pure]
      constructor
      · intro h
        constructor
        · intro x hx
          cases hx
          by_cases hc : m = 0 ∨ m > 12
          · rw [if_pos hc] at h; exact Except.noConfusion h
          · push_neg at hc; omega
        · intro x hx
          cases hx
      · rintro ⟨h1, -⟩
        obtain ⟨h11, h12⟩ := h1 m rfl
        rw [if_neg (by omega)]
    | some dd =>
      simp only [PartialDate.validate, Bind.bind, Except.bind, throw, throwThe,
        MonadExceptOf.throw, pure, Except.pure]
      constructor
      · intro h
        have hm : ¬(m = 0 ∨ m > 12) := by
          intro hc
          rw [if_pos hc] at h; exact Except.noConfusion h
        rw [if_neg hm] at h
        have hd : ¬(dd = 0 ∨ dd > PartialDate.max_days_in_month (some m) y) := by
          intro hc
          rw [if_pos hc] at h; exact Except.noConfusion h
        push_neg at hm
        push_neg at hd
        constructor
        · intro x hx
          cases hx
          omega
        · intro x hx
          cases hx
          omega
      · rintro ⟨h1, h2⟩
        obtain ⟨h11, h12⟩ := h1 m rfl
        obtain ⟨h21, h22⟩ := h2 dd rfl
        rw [if_neg (by omega), if_neg (by omega)]

/-! ## The JSON round trip for `PartialDate` -/

theorem natDigits_not_dash (n : Nat) : '-' ∉ natDigits n := by
  intro hmem
  exact absurd (natDigits_all_digit n '-' hmem) (by decide)

theorem pad2_not_dash (n : Nat) : '-' ∉ pad2 n := by
  intro hmem
  exact absurd (pad2_all_digit n '-' hmem) (by decide)

theorem renderYearComp_not_dash (o : Option Nat) : '-' ∉ renderYearComp o := by
  cases o with
  | none => simp [renderYearComp]
  | some n => exact natDigits_not_dash n

theorem renderPad2Comp_not_dash (o : Option Nat) : '-' ∉ renderPad2Comp o := by
  cases o with
  | none => simp [renderPad2Comp]
  | some n => exact pad2_not_dash n

theorem parse_renderYearComp (o : Option Nat) (h : ∀ n, o = some n → n ≤ 65535) :
    PartialDate.parse_json_component (renderYearComp o) = Except.ok o := by
  cases o with
  | none => exact parse_json_component_nil
  | some n => exact parse_json_component_natDigits n (h n rfl)

theorem parse_renderPad2Comp (o : Option Nat) (h : ∀ n, o = some n → n ≤ 65535) :
    PartialDate.parse_json_component (renderPad2Comp o) = Except.ok o := by
  cases o with
  | none => exact parse_json_component_nil
  | some n => exact parse_json_component_pad2 n (h n rfl)

theorem to_json_eq_components (d : PartialDate) :
    d.to_json_string_repr =
      renderYearComp d.year ++ ['-'] ++ renderPad2Comp d.month ++ ['-'] ++
        renderPad2Comp d.day := by
  obtain ⟨y, mo, da⟩ := d
  cases y <;> cases mo <;> cases da <;> rfl

theorem max_days_in_month_le (mo yr : Option Nat) :
    PartialDate.max_days_in_month mo yr ≤ 31 := by
  unfold PartialDate.max_days_in_month
  split
  · omega
  · split <;> try omega
    split
    · omega
    · split <;> omega

/-- Round trip of the `PartialDate` JSON string encoding, for a valid date
whose present year fits in `u16` (as the Rust field type guarantees). -/
theorem from_to_json (d : PartialDate)
    (hv : d.validate = Except.ok ())
    (hy : ∀ n, d.year = some n → n ≤ 65535) :
    PartialDate.from_json_string_repr d.to_json_string_repr = Except.ok d := by
  obtain ⟨y, mo, da⟩ := d
  obtain ⟨hmB, hdB⟩ := (validate_ok_iff ⟨y, mo, da⟩).mp hv
  have hm65 : ∀ n, mo = some n → n ≤ 65535 := by
    intro n h
    have := hmB n h
    omega
  have hd65 : ∀ n, da = some n → n ≤ 65535 := by
    intro n h
    have h2 := hdB n h
    have h3 := max_days_in_month_le mo y
    simp only at h2
    omega
  have hsplit : splitOnDash (PartialDate.to_json_string_repr ⟨y, mo, da⟩) =
      [renderYearComp y, renderPad2Comp mo, renderPad2Comp da] := by
    rw [to_json_eq_components ⟨y, mo, da⟩]
    simp only [List.append_assoc, List.singleton_append, List.cons_append,
      List.nil_append]
    rw [splitOnDash_append _ _ (renderYearComp_not_dash y),
      splitOnDash_append _ _ (renderPad2Comp_not_dash mo),
      splitOnDash_no_dash _ (renderPad2Comp_not_dash da)]
  unfold PartialDate.from_json_string_repr
  rw [hsplit]
  simp only [parse_renderYearComp y hy, parse_renderPad2Comp mo hm65,
    parse_renderPad2Comp da hd65, withCtx, Bind.bind, Except.bind, hv, pure, Except.pure]

theorem is_leap_year_iff (y : Nat) :
    PartialDate.is_leap_year y = true ↔ ((y % 4 = 0 ∧ y % 100 ≠ 0) ∨ y % 400 = 0) := by
  simp [PartialDate.is_leap_year, Bool.and_eq_true, Bool.or_eq_true, beq_iff_eq,
    bne_iff_ne]

theorem feb_max_days (y : Nat) :
    PartialDate.max_days_in_month (some 2) (some y) =
      if (y % 4 = 0 ∧ y % 100 ≠ 0) ∨ y % 400 = 0 then 29 else 28 := by
  by_cases h : (y % 4 = 0 ∧ y % 100 ≠ 0) ∨ y % 400 = 0
  · rw [if_pos h]
    have hl : PartialDate.is_leap_year y = true := (is_leap_year_iff y).mpr h
    simp [PartialDate.max_days_in_month, hl]
  · rw [if_neg h]
    have hl : PartialDate.is_leap_year y = false := by
      cases hb : PartialDate.is_leap_year y
      · rfl
      · exact absurd ((is_leap_year_iff y).mp hb) h
    simp [PartialDate.max_days_in_month, hl]

/-- Characterization of `PhoneNumber.validate`: success exactly when the
whitespace-stripped character list is non-empty, starts with an ASCII digit
or `'+'`, and continues with ASCII digits. -/
theorem phone_validate_ok_iff (p : PhoneNumber) :
    p.validate = Except.ok () ↔
      ∃ cFirst rest,
        p.number.toList.filter (fun c => !rustIsWhitespace c) = cFirst :: rest ∧
        (cFirst.isDigit = true ∨ cFirst = '+') ∧
        (∀ c ∈ rest, c.isDigit = true) := by
  cases hchars : p.number.toList.filter (fun c => !rustIsWhitespace c) with
  | nil =>
    simp only [PhoneNumber.validate, hchars]
    constructor
    · intro h
      simp [List.head?, Bind.bind, Except.bind, throw, throwThe, MonadExceptOf.throw] at h
    · rintro ⟨c, r, habs, -⟩
      exact absurd habs (by simp)
  | cons c cs =>
    simp only [PhoneNumber.validate, hchars, List.head?]
    by_cases hfc : (c.isDigit || decide (c = '+')) = true
    · by_cases hrest : cs.all Char.isDigit = true
      · simp only [hfc, hrest, Bool.not_true, if_false, Bind.bind, Except.bind,
          pure, Except.pure, List.drop_succ_cons, List.drop_zero]
        constructor
        · intro _
          refine ⟨c, cs, rfl, ?_, ?_⟩
          · have hor : c.isDigit = true ∨ c = '+' := by simpa using hfc
            exact hor
          · exact fun x hx => List.all_eq_true.mp hrest x hx
        · intro _
          rfl
      · rw [Bool.not_eq_true] at hrest
        simp only [hfc, hrest, Bool.not_true, Bool.not_false, if_false, if_true,
          Bind.bind, Except.bind, pure, Except.pure, throw, throwThe,
          MonadExceptOf.throw, List.drop_succ_cons, List.drop_zero]
        constructor
        · intro h
          exact Except.noConfusion h
        · rintro ⟨c2, r2, heq, -, hall⟩
          cases heq
          have : cs.all Char.isDigit = true := List.all_eq_true.mpr hall
          rw [this] at hrest
          exact Bool.noConfusion hrest
    · rw [Bool.not_eq_true] at hfc
      simp only [hfc, Bool.not_false, if_true, Bind.bind, Except.bind, throw,
        throwThe, MonadExceptOf.throw]
      constructor
      · intro h
        exact Except.noConfusion h
      · rintro ⟨c2, r2, heq, hforms, -⟩
        cases heq
        have hx : (c.isDigit || decide (c = '+')) = true := by
          rcases hforms with hd | hp
          · simp [hd]
          · simp [hp]
        rw [hx] at hfc
        exact Bool.noConfusion hfc

/-! ## Claim theorems -/

/-- C1: for every `PartialDate` that passes `validate` (with its Rust `u16`
year bound made explicit), decoding the JSON text encoding recovers the date
exactly: `from_json_string_repr (to_json_string_repr d)` succeeds and returns
`d`, where the encoding renders each absent component as the empty string,
the year as unpadded decimal, month and day zero-padded to width 2, joined by
`'-'`. -/
theorem claim_C1 (d : PartialDate)
    (hyear : ∀ n, d.year = some n → n ≤ 65535)
    (hvalid : d.validate = Except.ok ()) :
    PartialDate.from_json_string_repr (PartialDate.to_json_string_repr d) =
      Except.ok d :=
  from_to_json d hvalid hyear

/-- Witness for C1 at the concrete valid date 2000-02-29. -/
theorem claim_C1_witness :
    PartialDate.from_json_string_repr
        (PartialDate.to_json_string_repr ⟨some 2000, some 2, some 29⟩) =
      Except.ok ⟨some 2000, some 2, some 29⟩ :=
  claim_C1 ⟨some 2000, some 2, some 29⟩
    (fun n h => by cases h; omega)
    (by decide)

/-- C8: `PartialDate.validate` accepts a date exactly when any present month
is in `1..=12` and any present day is in `1..=max_days_in_month month year`;
February's maximum follows the leap-year rule when the year is known and is
29 when the year is absent; in particular `max_days_in_month 2 none = 29`,
`max_days_in_month 2 (some 1900) = 28` and `max_days_in_month 2 (some 2000)
= 29`. -/
theorem claim_C8 :
    (∀ d : PartialDate,
      d.validate = Except.ok () ↔
        (∀ m, d.month = some m → 1 ≤ m ∧ m ≤ 12) ∧
        (∀ dd, d.day = some dd →
          1 ≤ dd ∧ dd ≤ PartialDate.max_days_in_month d.month d.year)) ∧
    (∀ y, PartialDate.max_days_in_month (some 2) (some y) =
      if (y % 4 = 0 ∧ y % 100 ≠ 0) ∨ y % 400 = 0 then 29 else 28) ∧
    PartialDate.max_days_in_month (some 2) none = 29 ∧
    PartialDate.max_days_in_month (some 2) (some 1900) = 28 ∧
    PartialDate.max_days_in_month (some 2) (some 2000) = 29 :=
  ⟨validate_ok_iff, feb_max_days, by decide, by decide, by decide⟩

/-- C9: `PhoneNumber.validate` accepts exactly when, after removing all
whitespace, the string is non-empty, starts with an ASCII digit or `'+'`,
and continues with ASCII digits; in particular `"+1 555 123"` is valid while
`"555-123"`, `""` and `"abc"` are invalid. -/
theorem claim_C9 :
    (∀ p : PhoneNumber,
      p.validate = Except.ok () ↔
        ∃ cFirst rest,
          p.number.toList.filter (fun c => !rustIsWhitespace c) = cFirst :: rest ∧
          (cFirst.isDigit = true ∨ cFirst = '+') ∧
          (∀ c ∈ rest, c.isDigit = true)) ∧
    PhoneNumber.validate ⟨"+1 555 123", PhoneNumberType.Mobile⟩ = Except.ok () ∧
    PhoneNumber.validate ⟨"555-123", PhoneNumberType.Mobile⟩ =
      Except.error ["All except the first character of a phone number must be digits"] ∧
    PhoneNumber.validate ⟨"", PhoneNumberType.Mobile⟩ =
      Except.error ["Phone number cannot be empty"] ∧
    PhoneNumber.validate ⟨"abc", PhoneNumberType.Mobile⟩ =
      Except.error ["Phone number must begin with a digit or a '+'"] :=
  ⟨phone_validate_ok_iff, by decide, by decide, by decide, by decide⟩

/-- C7 counterexample: the input `"+1--"` has the non-digit character `'+'`
in its first component, yet `from_json_string_repr` succeeds, because Rust's
`u16::from_str` accepts an optional leading `'+'`.  The claim as stated
(error on any non-digit content) is therefore false. -/
theorem claim_C7_counterexample :
    PartialDate.from_json_string_repr ("+1--".toList) =
      Except.ok ⟨some 1, none, none⟩ := by decide

/-- Unfolding of `from_json_string_repr` once the split is known to have
exactly three components. -/
theorem from_json_string_repr_of_split_three (s c0 c1 c2 : List Char)
    (hsp : splitOnDash s = [c0, c1, c2]) :
    PartialDate.from_json_string_repr s = (do
      let year ← withCtx ("Invalid date format: \"" ++ s.asString ++ "\"")
        (PartialDate.parse_json_component c0)
      let month ← withCtx ("Invalid date format: \"" ++ s.asString ++ "\"")
        (PartialDate.parse_json_component c1)
      let day ← withCtx ("Invalid date format: \"" ++ s.asString ++ "\"")
        (PartialDate.parse_json_component c2)
      let date : PartialDate := ⟨year, month, day⟩
      withCtx ("Invalid date \"" ++ s.asString ++ "\"") date.validate
      pure date) := by
  unfold PartialDate.from_json_string_repr
  rw [hsp]

/-- C7 (amended): `from_json_string_repr` errors on every input that does not
split on `'-'` into exactly 3 components; it succeeds exactly when each
component is empty (giving `none`) or is a decimal `u16` numeral optionally
preceded by a single `'+'` (errors on any other non-digit content and on
values overflowing `u16`), and the assembled date passes `validate`. -/
theorem claim_C7 :
    (∀ s : List Char, (splitOnDash s).length ≠ 3 →
      ∃ e, PartialDate.from_json_string_repr s = Except.error e) ∧
    (∀ (s : List Char) (d : PartialDate),
      PartialDate.from_json_string_repr s = Except.ok d ↔
        ∃ c0 c1 c2, splitOnDash s = [c0, c1, c2] ∧
          jsonComponentSpec c0 d.year ∧ jsonComponentSpec c1 d.month ∧
          jsonComponentSpec c2 d.day ∧ d.validate = Except.ok ()) := by
  constructor
  · intro s h
    unfold PartialDate.from_json_string_repr
    rcases hsp : splitOnDash s with _ | ⟨c0, _ | ⟨c1, _ | ⟨c2, _ | ⟨c3, rest⟩⟩⟩⟩
    · exact ⟨_, rfl⟩
    · exact ⟨_, rfl⟩
    · exact ⟨_, rfl⟩
    · exact absurd (by simp [hsp] : (splitOnDash s).length = 3) h
    · exact ⟨_, rfl⟩
  · intro s d
    constructor
    · intro h
      rcases hsp : splitOnDash s with _ | ⟨c0, _ | ⟨c1, _ | ⟨c2, _ | ⟨c3, rest⟩⟩⟩⟩
      · unfold PartialDate.from_json_string_repr at h
        rw [hsp] at h
        exact Except.noConfusion h
      · unfold PartialDate.from_json_string_repr at h
        rw [hsp] at h
        exact Except.noConfusion h
      · unfold PartialDate.from_json_string_repr at h
        rw [hsp] at h
        exact Except.noConfusion h
      · rw [from_json_string_repr_of_split_three s c0 c1 c2 hsp] at h
        cases hp0 : PartialDate.parse_json_component c0 with
        | error e => rw [hp0] at h; simp [withCtx, Bind.bind, Except.bind] at h
        | ok o0 =>
          cases hp1 : PartialDate.parse_json_component c1 with
          | error e =>
            rw [hp0, hp1] at h
            simp [withCtx, Bind.bind, Except.bind] at h
          | ok o1 =>
            cases hp2 : PartialDate.parse_json_component c2 with
            | error e =>
              rw [hp0, hp1, hp2] at h
              simp [withCtx, Bind.bind, Except.bind] at h
            | ok o2 =>
              simp only [hp0, hp1, hp2, withCtx, Bind.bind, Except.bind] at h
              cases hval : PartialDate.validate ⟨o0, o1, o2⟩ with
              | error e =>
                rw [hval] at h
                simp [withCtx, Bind.bind, Except.bind] at h
              | ok u =>
                cases u
                rw [hval] at h
                simp only [withCtx, pure, Except.pure] at h
                cases h
                exact ⟨c0, c1, c2, rfl,
                  (parse_json_component_ok_iff c0 o0).mp hp0,
                  (parse_json_component_ok_iff c1 o1).mp hp1,
                  (parse_json_component_ok_iff c2 o2).mp hp2, hval⟩
      · unfold PartialDate.from_json_string_repr at h
        rw [hsp] at h
        exact Except.noConfusion h
    · rintro ⟨c0, c1, c2, hsp, h0, h1, h2, hval⟩
      rw [from_json_string_repr_of_split_three s c0 c1 c2 hsp]
      have he : (⟨d.year, d.month, d.day⟩ : PartialDate) = d := rfl
      simp only [(parse_json_component_ok_iff c0 d.year).mpr h0,
        (parse_json_component_ok_iff c1 d.month).mpr h1,
        (parse_json_component_ok_iff c2 d.day).mpr h2,
        withCtx, Bind.bind, Except.bind, he, hval, pure, Except.pure]

/-- Witness for C7 at the concrete input `"1-2"`, which splits into only two
components. -/
theorem claim_C7_witness :
    ∃ e, PartialDate.from_json_string_repr ("1-2".toList) = Except.error e :=
  claim_C7.1 ("1-2".toList) (by decide)

/-- C3: for every valid `PartialDate`, `to_vcard_string_repr` succeeds
exactly on the six representable presence combinations with the table's
encodings (`---DD`, `--MM`, `--MMDD`, `YYYY`, `YYYY-MM`, `YYYYMMDD`), fails
with the unrepresentable-date error for all-absent and for year+day without
month, and fails whenever a present year exceeds 9999 (the 9999 check runs
first, so a too-large year on the year+day combination reports the year
error). -/
theorem claim_C3 (d : PartialDate) (hvalid : d.validate = Except.ok ()) :
    (∀ dd, d = ⟨none, none, some dd⟩ →
      d.to_vcard_string_repr = Except.ok (['-', '-', '-'] ++ pad2 dd)) ∧
    (∀ m, d = ⟨none, some m, none⟩ →
      d.to_vcard_string_repr = Except.ok (['-', '-'] ++ pad2 m)) ∧
    (∀ m dd, d = ⟨none, some m, some dd⟩ →
      d.to_vcard_string_repr = Except.ok (['-', '-'] ++ pad2 m ++ pad2 dd)) ∧
    (∀ y, d = ⟨some y, none, none⟩ → y ≤ 9999 →
      d.to_vcard_string_repr = Except.ok (pad4 y)) ∧
    (∀ y m, d = ⟨some y, some m, none⟩ → y ≤ 9999 →
      d.to_vcard_string_repr = Except.ok (pad4 y ++ ['-'] ++ pad2 m)) ∧
    (∀ y m dd, d = ⟨some y, some m, some dd⟩ → y ≤ 9999 →
      d.to_vcard_string_repr = Except.ok (pad4 y ++ pad2 m ++ pad2 dd)) ∧
    (d = ⟨none, none, none⟩ →
      d.to_vcard_string_repr =
        Except.error ["Date cannot be represented in vCard version 4.0"]) ∧
    (∀ y dd, d = ⟨some y, none, some dd⟩ → y ≤ 9999 →
      d.to_vcard_string_repr =
        Except.error ["Date cannot be represented in vCard version 4.0"]) ∧
    (∀ y, d.year = some y → y > 9999 →
      d.to_vcard_string_repr =
        Except.error
          ["Years greater than 9999 cannot be represented in vCard version 4.0"]) := by
  refine ⟨?_, ?_, ?_, ?_, ?_, ?_, ?_, ?_, ?_⟩
  · rintro dd rfl
    rfl
  · rintro m rfl
    rfl
  · rintro m dd rfl
    rfl
  · rintro y rfl hy
    simp only [PartialDate.to_vcard_string_repr, Bind.bind, Except.bind]
    rw [if_neg (by omega : ¬y > 9999)]
    rfl
  · rintro y m rfl hy
    simp only [PartialDate.to_vcard_string_repr, Bind.bind, Except.bind]
    rw [if_neg (by omega : ¬y > 9999)]
    rfl
  · rintro y m dd rfl hy
    simp only [PartialDate.to_vcard_string_repr, Bind.bind, Except.bind]
    rw [if_neg (by omega : ¬y > 9999)]
    rfl
  · rintro rfl
    rfl
  · rintro y dd rfl hy
    simp only [PartialDate.to_vcard_string_repr, Bind.bind, Except.bind]
    rw [if_neg (by omega : ¬y > 9999)]
    rfl
  · intro y hy hgt
    obtain ⟨y2, mo, da⟩ := d
    cases hy
    simp only [PartialDate.to_vcard_string_repr, Bind.bind, Except.bind]
    rw [if_pos hgt]

/-- Witness for C3 at the concrete valid date with only month 2 and day 29
present. -/
theorem claim_C3_witness :
    PartialDate.to_vcard_string_repr ⟨none, some 2, some 29⟩ =
      Except.ok (['-', '-'] ++ pad2 2 ++ pad2 29) :=
  (claim_C3 ⟨none, some 2, some 29⟩ (by decide)).2.2.1 2 29 rfl

/-! ## The birthday projector -/

theorem dateLe_same_year (t : Date) (m dd : Nat) :
    dateLe t ⟨t.year, m, dd⟩ = true ↔
      (t.month < m ∨ (t.month = m ∧ t.day ≤ dd)) := by
  simp [dateLe, Bool.or_eq_true, Bool.and_eq_true, decide_eq_true_eq, beq_iff_eq]

theorem nextBday_eq (today : Date) (b : PartialDate) (m dd : Nat)
    (hm : b.month = some m) (hd : b.day = some dd) :
    nextBday today b =
      some (if today.month < m ∨ (today.month = m ∧ today.day ≤ dd)
        then ⟨today.year, m, dd⟩ else ⟨today.year + 1, m, dd⟩) := by
  unfold nextBday
  rw [hm, hd]
  by_cases hc : today.month < m ∨ (today.month = m ∧ today.day ≤ dd)
  · rw [if_pos hc]
    simp only [if_pos ((dateLe_same_year today m dd).mpr hc)]
  · rw [if_neg hc]
    simp only [if_neg (fun hb => hc ((dateLe_same_year today m dd).mp hb))]

theorem nextBday_some_implies (today : Date) (b : PartialDate) (nb : Date)
    (h : nextBday today b = some nb) :
    ∃ m dd, b.month = some m ∧ b.day = some dd := by
  obtain ⟨y, mo, da⟩ := b
  cases mo with
  | none => simp [nextBday] at h
  | some m =>
    cases da with
    | none => simp [nextBday] at h
    | some dd => exact ⟨m, dd, rfl, rfl⟩

theorem mem_bdaysListing_iff (today : Date) (contacts : List Contact)
    (item : BdayItem) :
    item ∈ bdaysListing today contacts ↔ item ∈ bdayItems today contacts :=
  (List.perm_insertionSort
    (fun a b => dateLe a.next_bday b.next_bday = true)
    (bdayItems today contacts)).mem_iff

/-- C4: for each contact of the store, the `Bdays` listing includes the
contact exactly when its birthday has both month and day present; the
projected date is this year's `(month, day)` when that pair compares at least
today's `(month, day)` lexicographically, else next year's; a February-29
birthday is projected and emitted verbatim, with no leap-year check. -/
theorem claim_C4 (today : Date) (contacts : List Contact) (c : Contact)
    (hc : c ∈ contacts) :
    ((∃ item ∈ bdaysListing today contacts, item.contact = c) ↔
      (∃ b, c.birthday = some b ∧
        ∃ m dd, b.month = some m ∧ b.day = some dd)) ∧
    (∀ b m dd, c.birthday = some b → b.month = some m → b.day = some dd →
      nextBday today b =
        some (if today.month < m ∨ (today.month = m ∧ today.day ≤ dd)
          then ⟨today.year, m, dd⟩ else ⟨today.year + 1, m, dd⟩)) ∧
    (∀ b, c.birthday = some b → b.month = some 2 → b.day = some 29 →
      ∃ item ∈ bdaysListing today contacts,
        item.contact = c ∧ item.next_bday.month = 2 ∧ item.next_bday.day = 29) := by
  have hmem : ∀ item : BdayItem, item ∈ bdayItems today contacts ↔
      ∃ a ∈ contacts,
        (match a.birthday with
          | none => none
          | some bday =>
            match nextBday today bday with
            | some nb => some (⟨nb, a⟩ : BdayItem)
            | none => none) = some item := by
    intro item
    unfold bdayItems
    rw [List.mem_filterMap]
  refine ⟨?_, ?_, ?_⟩
  · constructor
    · rintro ⟨item, hitem, hitemc⟩
      rw [mem_bdaysListing_iff] at hitem
      obtain ⟨a, ha, hfa⟩ := (hmem item).mp hitem
      cases hab : a.birthday with
      | none =>
        simp only [hab] at hfa
        exact Option.noConfusion hfa
      | some b =>
        simp only [hab] at hfa
        cases hnb : nextBday today b with
        | none =>
          simp only [hnb] at hfa
          exact Option.noConfusion hfa
        | some nb =>
          simp only [hnb] at hfa
          injection hfa with hfa2
          have hac : a = c := by rw [← hitemc, ← hfa2]
          subst hac
          obtain ⟨m, dd, hm, hd⟩ := nextBday_some_implies today b nb hnb
          exact ⟨b, hab, m, dd, hm, hd⟩
    · rintro ⟨b, hb, m, dd, hm, hd⟩
      have hnb := nextBday_eq today b m dd hm hd
      refine ⟨⟨if today.month < m ∨ (today.month = m ∧ today.day ≤ dd)
        then ⟨today.year, m, dd⟩ else ⟨today.year + 1, m, dd⟩, c⟩, ?_, rfl⟩
      rw [mem_bdaysListing_iff, hmem]
      refine ⟨c, hc, ?_⟩
      simp only [hb, hnb]
  · intro b m dd hb hm hd
    exact nextBday_eq today b m dd hm hd
  · intro b hb hm hd
    have hnb := nextBday_eq today b 2 29 hm hd
    refine ⟨⟨if today.month < 2 ∨ (today.month = 2 ∧ today.day ≤ 29)
      then ⟨today.year, 2, 29⟩ else ⟨today.year + 1, 2, 29⟩, c⟩, ?_, rfl, ?_, ?_⟩
    · rw [mem_bdaysListing_iff, hmem]
      refine ⟨c, hc, ?_⟩
      simp only [hb, hnb]
    · by_cases hcond : today.month < 2 ∨ (today.month = 2 ∧ today.day ≤ 29) <;>
        simp [hcond]
    · by_cases hcond : today.month < 2 ∨ (today.month = 2 ∧ today.day ≤ 29) <;>
        simp [hcond]

/-- Witness for C4: a single contact with a February-29 birthday (year
unknown), today 2024-03-01; the listing contains its projected date with
month 2 and day 29. -/
theorem claim_C4_witness :
    ∃ item ∈ bdaysListing ⟨2024, 3, 1⟩
        [⟨⟨"Ada", "Lovelace"⟩, some ⟨none, some 2, some 29⟩, [], [], none⟩],
      item.contact =
          (⟨⟨"Ada", "Lovelace"⟩, some ⟨none, some 2, some 29⟩, [], [], none⟩ : Contact) ∧
        item.next_bday.month = 2 ∧ item.next_bday.day = 29 :=
  (claim_C4 ⟨2024, 3, 1⟩
    [⟨⟨"Ada", "Lovelace"⟩, some ⟨none, some 2, some 29⟩, [], [], none⟩]
    ⟨⟨"Ada", "Lovelace"⟩, some ⟨none, some 2, some 29⟩, [], [], none⟩
    (List.mem_singleton.mpr rfl)).2.2
    ⟨none, some 2, some 29⟩ rfl rfl rfl

/-! ## The birthday-calendar loop -/

theorem knownYearEventsGo_length_le (nowYear mo da : Nat) (f l : String) :
    ∀ fuel age year,
      (knownYearEventsGo nowYear mo da f l fuel age year).length ≤ fuel := by
  intro fuel
  induction fuel with
  | zero => intro age year; simp [knownYearEventsGo]
  | succ fu ih =>
    intro age year
    simp only [knownYearEventsGo]
    split
    · simp
    · simp only [List.length_cons]
      have := ih (age + 1) (year + 1)
      omega

theorem knownYearEventsGo_length_pos (nowYear mo da : Nat) (f l : String)
    (fuel age year : Nat) :
    1 ≤ (knownYearEventsGo nowYear mo da f l (fuel + 1) age year).length := by
  simp only [knownYearEventsGo]
  split <;> simp

theorem knownYearEventsGo_length_one (nowYear mo da : Nat) (f l : String)
    (fuel age year : Nat) (h : year > nowYear + 10) :
    (knownYearEventsGo nowYear mo da f l (fuel + 1) age year).length = 1 := by
  simp only [knownYearEventsGo]
  rw [if_pos (by omega : year + 1 > nowYear + 10)]
  rfl

theorem knownYearEventsGo_length_eq (nowYear mo da : Nat) (f l : String) :
    ∀ fuel age year, year + fuel ≤ nowYear + 11 →
      (knownYearEventsGo nowYear mo da f l fuel age year).length = fuel := by
  intro fuel
  induction fuel with
  | zero => intro age year _; simp [knownYearEventsGo]
  | succ fu ih =>
    intro age year h
    simp only [knownYearEventsGo]
    split
    · rename_i hbr
      have hfu : fu = 0 := by omega
      subst hfu
      rfl
    · simp only [List.length_cons, ih (age + 1) (year + 1) (by omega)]

/-- C10: for a contact with fully known birthday, the calendar loop emits at
least one event (the age-0 event precedes the horizon check, so one event
appears even when the birth year already exceeds this year + 10) and at most
150 events (ages 0 through 149); when `birthYear + 149 ≤ nowYear + 10` the
loop stops at age 149 rather than at the ten-year horizon, emitting exactly
150 events. -/
theorem claim_C10 (nowYear birthYear mo da : Nat) (f l : String) :
    1 ≤ (knownYearEvents nowYear birthYear mo da f l).length ∧
    (knownYearEvents nowYear birthYear mo da f l).length ≤ 150 ∧
    (birthYear > nowYear + 10 →
      (knownYearEvents nowYear birthYear mo da f l).length = 1) ∧
    (birthYear + 149 ≤ nowYear + 10 →
      (knownYearEvents nowYear birthYear mo da f l).length = 150) := by
  refine ⟨?_, ?_, ?_, ?_⟩
  · exact knownYearEventsGo_length_pos nowYear mo da f l 149 0 birthYear
  · exact knownYearEventsGo_length_le nowYear mo da f l 150 0 birthYear
  · intro h
    exact knownYearEventsGo_length_one nowYear mo da f l 149 0 birthYear h
  · intro h
    exact knownYearEventsGo_length_eq nowYear mo da f l 150 0 birthYear (by omega)

/-- Witness for C10: a contact born in 1800 with "now" 2024 gets exactly 150
events, and one born in 2050 gets exactly 1. -/
theorem claim_C10_witness :
    (knownYearEvents 2024 1800 1 1 "Ada" "Lovelace").length = 150 ∧
    (knownYearEvents 2024 2050 1 1 "Ada" "Lovelace").length = 1 :=
  ⟨(claim_C10 2024 1800 1 1 "Ada" "Lovelace").2.2.2 (by omega),
    (claim_C10 2024 2050 1 1 "Ada" "Lovelace").2.2.1 (by omega)⟩

/-! ## The JSON contact round trip -/

theorem listMapExcept_map_ok (f : β → Except Err α) (g : α → β) :
    ∀ l : List α, (∀ x ∈ l, f (g x) = Except.ok x) →
      listMapExcept f (l.map g) = Except.ok l := by
  intro l
  induction l with
  | nil => intro _; rfl
  | cons a as ih =>
    intro h
    simp only [List.map_cons, listMapExcept, h a (List.mem_cons_self a as),
      ih (fun x hx => h x (List.mem_cons_of_mem a hx)),
      Bind.bind, Except.bind, pure, Except.pure]

theorem optionMapExcept_map_ok (f : β → Except Err α) (g : α → β) (o : Option α)
    (h : ∀ x, o = some x → f (g x) = Except.ok x) :
    optionMapExcept f (o.map g) = Except.ok o := by
  cases o with
  | none => rfl
  | some a => simp [optionMapExcept, h a rfl, Except.map]

theorem decode_encode (j : JsonContact) :
    JsonContactEncoded.decode (JsonContact.encode j) = j := by
  obtain ⟨n, b, ph, em, ad⟩ := j
  cases ph <;> cases em <;> rfl

theorem phone_tryFrom_from (p : PhoneNumber) (hv : p.validate = Except.ok ()) :
    PhoneNumber.tryFrom (JsonPhoneNumber.from p) = Except.ok p := by
  have hty : PhoneNumberType.fromJson (JsonPhoneNumberType.from p.ty) = p.ty := by
    cases p.ty <;> rfl
  unfold PhoneNumber.tryFrom JsonPhoneNumber.from
  simp only [hty]
  have he : (⟨p.number, p.ty⟩ : PhoneNumber) = p := rfl
  rw [he]
  simp only [hv, withCtx, Bind.bind, Except.bind, pure, Except.pure]

theorem address_tryFrom_from (table : List CountryCode) (a : Address)
    (hc : from_alpha2 table a.country.alpha2 = Except.ok a.country) :
    Address.tryFrom table (JsonAddress.from a) = Except.ok a := by
  unfold Address.tryFrom JsonAddress.from
  simp only [hc, withCtx, Bind.bind, Except.bind, pure, Except.pure]

theorem contact_tryFrom_from (table : List CountryCode) (c : Contact)
    (hb : ∀ b, c.birthday = some b →
      b.validate = Except.ok () ∧ (∀ n, b.year = some n → n ≤ 65535))
    (hp : ∀ p ∈ c.phone_numbers, p.validate = Except.ok ())
    (ha : ∀ a, c.address = some a →
      from_alpha2 table a.country.alpha2 = Except.ok a.country) :
    Contact.tryFrom table (JsonContact.from c) = Except.ok c := by
  have h1 : optionMapExcept (fun s => PartialDate.from_json_string_repr s)
      (c.birthday.map PartialDate.to_json_string_repr) = Except.ok c.birthday :=
    optionMapExcept_map_ok _ _ _
      (fun b hb2 => from_to_json b (hb b hb2).1 (hb b hb2).2)
  have h2 : listMapExcept PhoneNumber.tryFrom
      (c.phone_numbers.map JsonPhoneNumber.from) = Except.ok c.phone_numbers :=
    listMapExcept_map_ok _ _ _ (fun p hp2 => phone_tryFrom_from p (hp p hp2))
  have h3 : optionMapExcept (Address.tryFrom table)
      (c.address.map JsonAddress.from) = Except.ok c.address :=
    optionMapExcept_map_ok _ _ _ (fun a ha2 => address_tryFrom_from table a (ha a ha2))
  unfold Contact.tryFrom JsonContact.from
  simp only [h1, h2, h3, withCtx, Bind.bind, Except.bind, pure, Except.pure]
  rfl

/-- C2: serializing a list of valid contacts with `contacts_to_json` and then
deserializing with `contacts_from_json` succeeds and returns the same list,
in order; moreover an empty phone or email vector is omitted from the wire
object, and a wire object with the phone or email field absent decodes to an
empty sequence for that field. -/
theorem claim_C2 (table : List CountryCode) (contacts : List Contact)
    (h : ∀ c ∈ contacts,
      (∀ b, c.birthday = some b →
        b.validate = Except.ok () ∧ (∀ n, b.year = some n → n ≤ 65535)) ∧
      (∀ p ∈ c.phone_numbers, p.validate = Except.ok ()) ∧
      (∀ a, c.address = some a →
        from_alpha2 table a.country.alpha2 = Except.ok a.country)) :
    contacts_from_json table (contacts_to_json contacts) = Except.ok contacts ∧
    (∀ c : Contact, c.phone_numbers = [] →
      (JsonContact.encode (JsonContact.from c)).phone = none) ∧
    (∀ c : Contact, c.email_addresses = [] →
      (JsonContact.encode (JsonContact.from c)).email = none) ∧
    (∀ w : JsonContactEncoded, w.phone = none →
      (JsonContactEncoded.decode w).phone = []) ∧
    (∀ w : JsonContactEncoded, w.email = none →
      (JsonContactEncoded.decode w).email = []) := by
  refine ⟨?_, ?_, ?_, ?_, ?_⟩
  · unfold contacts_from_json contacts_to_json
    have hlist : listMapExcept
        (fun w => Contact.tryFrom table (JsonContactEncoded.decode w))
        (contacts.map (fun c => JsonContact.encode (JsonContact.from c))) =
        Except.ok contacts := by
      apply listMapExcept_map_ok
      intro c hc2
      rw [decode_encode]
      exact contact_tryFrom_from table c (h c hc2).1 (h c hc2).2.1 (h c hc2).2.2
    rw [hlist]
    rfl
  · intro c hc2
    simp [JsonContact.encode, JsonContact.from, hc2]
  · intro c hc2
    simp [JsonContact.encode, JsonContact.from, hc2]
  · intro w hw
    simp [JsonContactEncoded.decode, hw]
  · intro w hw
    simp [JsonContactEncoded.decode, hw]

/-- Witness for C2: a concrete single-contact store with a valid birthday,
one valid phone number, one email address and a known country code
round-trips through the JSON codec. -/
theorem claim_C2_witness :
    contacts_from_json [⟨"CH", "Switzerland"⟩]
        (contacts_to_json
          [⟨⟨"Ada", "Lovelace"⟩, some ⟨some 2000, some 2, some 29⟩,
            [⟨"+41 79 123", PhoneNumberType.Mobile⟩], ["ada@example.com"],
            some ⟨"Bahnhofstrasse", "1", "Zurich", "8001", ⟨"CH", "Switzerland"⟩⟩⟩]) =
      Except.ok
        [⟨⟨"Ada", "Lovelace"⟩, some ⟨some 2000, some 2, some 29⟩,
          [⟨"+41 79 123", PhoneNumberType.Mobile⟩], ["ada@example.com"],
          some ⟨"Bahnhofstrasse", "1", "Zurich", "8001", ⟨"CH", "Switzerland"⟩⟩⟩] :=
  (claim_C2 [⟨"CH", "Switzerland"⟩]
    [⟨⟨"Ada", "Lovelace"⟩, some ⟨some 2000, some 2, some 29⟩,
      [⟨"+41 79 123", PhoneNumberType.Mobile⟩], ["ada@example.com"],
      some ⟨"Bahnhofstrasse", "1", "Zurich", "8001", ⟨"CH", "Switzerland"⟩⟩⟩]
    (by
      intro c hc
      rcases List.mem_singleton.mp hc with rfl
      refine ⟨?_, ?_, ?_⟩
      · intro b hb
        cases hb
        exact ⟨by decide, fun n hn => by cases hn; omega⟩
      · intro p hp
        rcases List.mem_singleton.mp hp with rfl
        decide
      · intro a ha
        cases ha
        decide)).1

/-! ## Error propagation -/

theorem withCtx_isOk (m : String) (x : Except Err α) :
    (withCtx m x).isOk = x.isOk := by
  cases x <;> rfl

theorem withCtx_error (m : String) (x : Except Err α) (e : Err)
    (h : withCtx m x = Except.error e) :
    ∃ e1, x = Except.error e1 ∧ e = m :: e1 := by
  cases x with
  | ok a => exact Except.noConfusion h
  | error e1 =>
    cases h
    exact ⟨e1, rfl, rfl⟩

theorem listMapExcept_isOk_iff (f : α → Except Err β) (l : List α) :
    (listMapExcept f l).isOk = true ↔ ∀ a ∈ l, (f a).isOk = true := by
  induction l with
  | nil =>
    constructor
    · intro _ a ha
      exact absurd ha (List.not_mem_nil a)
    · intro _
      rfl
  | cons a as ih =>
    cases hfa : f a with
    | error e =>
      simp only [listMapExcept, hfa, Bind.bind, Except.bind]
      constructor
      · intro h
        exact Bool.noConfusion h
      · intro h
        have h2 := h a (List.mem_cons_self a as)
        rw [hfa] at h2
        exact Bool.noConfusion h2
    | ok b =>
      simp only [listMapExcept, hfa, Bind.bind, Except.bind]
      cases hrest : listMapExcept f as with
      | error e2 =>
        constructor
        · intro h
          exact Bool.noConfusion h
        · intro hall
          have h2 : (listMapExcept f as).isOk = true :=
            ih.mpr (fun x hx => hall x (List.mem_cons_of_mem a hx))
          rw [hrest] at h2
          exact Bool.noConfusion h2
      | ok bs =>
        constructor
        · intro _
          intro x hx
          rcases List.mem_cons.mp hx with rfl | hx2
          · rw [hfa]; rfl
          · exact ih.mp (by rw [hrest]; rfl) x hx2
        · intro _
          rfl

theorem listMapExcept_error (f : α → Except Err β) :
    ∀ (l : List α) (e : Err), listMapExcept f l = Except.error e →
      ∃ a ∈ l, f a = Except.error e := by
  intro l
  induction l with
  | nil => intro e h; exact Except.noConfusion h
  | cons a as ih =>
    intro e h
    cases hfa : f a with
    | error e1 =>
      simp only [listMapExcept, hfa, Bind.bind, Except.bind] at h
      cases h
      exact ⟨a, List.mem_cons_self a as, hfa⟩
    | ok b =>
      simp only [listMapExcept, hfa, Bind.bind, Except.bind] at h
      cases hrest : listMapExcept f as with
      | error e2 =>
        rw [hrest] at h
        cases h
        obtain ⟨x, hx, hfx⟩ := ih _ hrest
        exact ⟨x, List.mem_cons_of_mem a hx, hfx⟩
      | ok bs =>
        rw [hrest] at h
        exact Except.noConfusion h

theorem contact_tryFrom_error_head (table : List CountryCode) (j : JsonContact)
    (e : Err) (h : Contact.tryFrom table j = Except.error e) :
    e.head? = some ("Failed to parse contact \"" ++ j.name.first ++ " " ++
      j.name.last ++ "\"") := by
  unfold Contact.tryFrom at h
  cases h1 : optionMapExcept (fun s => PartialDate.from_json_string_repr s) j.bday with
  | error e1 =>
    simp only [h1, withCtx, Bind.bind, Except.bind] at h
    cases h
    rfl
  | ok b =>
    simp only [h1, withCtx, Bind.bind, Except.bind] at h
    cases h2 : listMapExcept PhoneNumber.tryFrom j.phone with
    | error e2 =>
      simp only [h2, withCtx, Bind.bind, Except.bind] at h
      cases h
      rfl
    | ok ph =>
      simp only [h2, withCtx, Bind.bind, Except.bind] at h
      cases h3 : optionMapExcept (Address.tryFrom table) j.address with
      | error e3 =>
        simp only [h3, withCtx, Bind.bind, Except.bind] at h
        cases h
        rfl
      | ok ad =>
        simp only [h3, withCtx, Bind.bind, Except.bind, pure, Except.pure] at h
        exact Except.noConfusion h

theorem contacts_to_vcard_error_head (contacts : List Contact) (e : Err)
    (h : contacts_to_vcard contacts = Except.error e) :
    e.head? = some "Contact could not be serialized to vCard" := by
  unfold contacts_to_vcard at h
  obtain ⟨c, hc, hfc⟩ := listMapExcept_error _ contacts e h
  obtain ⟨e1, he1, rfl⟩ := withCtx_error _ _ e hfc
  rfl

/-- C6 counterexample: a contact whose birthday is the all-absent
`PartialDate` (which `validate` accepts but vCard cannot represent) makes the
vCard export fail with a generic context message that does not contain the
contact's display name, refuting the claim that both operations wrap errors
with the contact's name. -/
theorem claim_C6_counterexample :
    contacts_to_vcard
      [⟨⟨"Ada", "Lovelace"⟩, some ⟨none, none, none⟩, [], [], none⟩] =
      Except.error ["Contact could not be serialized to vCard",
        "Failed to write birthday to contentline",
        "Date cannot be represented in vCard version 4.0"] ∧
    ∀ msg ∈ (["Contact could not be serialized to vCard",
        "Failed to write birthday to contentline",
        "Date cannot be represented in vCard version 4.0"] : Err),
      ¬ ("Ada Lovelace".toList <:+: msg.toList) := by
  constructor
  · decide
  · decide

/-- C6 (amended): during the JSON store load, each per-contact failure is
wrapped with the contact's display name (first+last) and any failing contact
makes the whole load fail; during the vCard export, any failing contact makes
the whole export fail, but the wrapping message is the generic `"Contact
could not be serialized to vCard"`, without the contact's name. -/
theorem claim_C6 :
    (∀ (table : List CountryCode) (doc : List JsonContactEncoded),
      (contacts_from_json table doc).isOk = true ↔
        ∀ w ∈ doc, (Contact.tryFrom table w.decode).isOk = true) ∧
    (∀ (table : List CountryCode) (j : JsonContact) (e : Err),
      Contact.tryFrom table j = Except.error e →
        e.head? = some ("Failed to parse contact \"" ++ j.name.first ++ " " ++
          j.name.last ++ "\"")) ∧
    (∀ contacts : List Contact,
      (contacts_to_vcard contacts).isOk = true ↔
        ∀ c ∈ contacts, (contact_to_contentlines c).isOk = true) ∧
    (∀ (contacts : List Contact) (e : Err),
      contacts_to_vcard contacts = Except.error e →
        e.head? = some "Contact could not be serialized to vCard") := by
  refine ⟨?_, contact_tryFrom_error_head, ?_, contacts_to_vcard_error_head⟩
  · intro table doc
    unfold contacts_from_json
    rw [withCtx_isOk, listMapExcept_isOk_iff]
  · intro contacts
    unfold contacts_to_vcard
    rw [listMapExcept_isOk_iff]
    constructor
    · intro h c hc
      have h2 := h c hc
      rw [withCtx_isOk] at h2
      exact h2
    · intro h c hc
      rw [withCtx_isOk]
      exact h c hc

/-- Witness for C6: a contact with an invalid phone number fails the JSON
load with an error whose outermost message is the contact's display name
wrapper. -/
theorem claim_C6_witness :
    Contact.tryFrom []
        ⟨⟨"Bad", "Phone"⟩, none, [⟨"abc", JsonPhoneNumberType.Mobile⟩], [], none⟩ =
      Except.error ["Failed to parse contact \"Bad Phone\"",
        "Failed to parse phone number",
        "Phone number must begin with a digit or a '+'"] ∧
    (["Failed to parse contact \"Bad Phone\"",
      "Failed to parse phone number",
      "Phone number must begin with a digit or a '+'"] : Err).head? =
      some ("Failed to parse contact \"" ++ "Bad" ++ " " ++ "Phone" ++ "\"") :=
  ⟨by decide,
    claim_C6.2.1 []
      ⟨⟨"Bad", "Phone"⟩, none, [⟨"abc", JsonPhoneNumberType.Mobile⟩], [], none⟩
      _ (by decide)⟩

example : PartialDate.from_json_string_repr ("-03-09".toList) =
    Except.ok ⟨none, some 3, some 9⟩ := by decide

example : PartialDate.to_json_string_repr ⟨none, some 3, some 9⟩ = "-03-09".toList := by decide

example : (PartialDate.to_vcard_string_repr ⟨some 1990, none, some 3⟩).isOk = false := by decide

example : PartialDate.to_vcard_string_repr ⟨none, some 2, some 29⟩ =
    Except.ok ("--0229".toList) := by decide
